import Mathlib

/-!
Verification of the configuration core of Red-DiscordBot
(`redbot/core/config.py`): Python values, the `Value`/`Group` read path
with default merging, the `_ValueCtxManager` scoped read-modify-write
protocol, the per-address lock discipline, the `ConfigMeta` singleton
cache, and the `_str_key_dict` key normalization.
-/

namespace RedConfig

/-- A Python dictionary key as used by the config layer: either a string
or an integer (`str(k)` coerces the latter). -/
inductive PyKey where
  | kstr (s : String)
  | kint (n : Int)
  deriving DecidableEq

/-- `str(k)` on a dictionary key. -/
def keyStr : PyKey → String
  | .kstr s => s
  | .kint n => toString n

mutual
/-- A JSON-like Python value: `None`, booleans, integers, strings,
lists and dictionaries (association lists, insertion-ordered as in
Python dicts). -/
inductive PyVal where
  | none
  | bool (b : Bool)
  | int (n : Int)
  | str (s : String)
  | list (xs : PyList)
  | dict (fs : PyFields)
  deriving DecidableEq

/-- The elements of a Python list. -/
inductive PyList where
  | nil
  | cons (v : PyVal) (tl : PyList)
  deriving DecidableEq

/-- The entries of a Python dictionary, in insertion order. -/
inductive PyFields where
  | nil
  | cons (k : PyKey) (v : PyVal) (tl : PyFields)
  deriving DecidableEq
end

/-- `fs[k]` lookup: the value at the first occurrence of key `k`. -/
def lookupF : PyFields → PyKey → Option PyVal
  | .nil, _ => Option.none
  | .cons k v tl, k0 => if k = k0 then some v else lookupF tl k0

/-- `fs[k] = v` assignment, with Python dict semantics: an existing key
keeps its position and gets the new value, a new key is appended. -/
def setF : PyFields → PyKey → PyVal → PyFields
  | .nil, k, v => .cons k v .nil
  | .cons k1 v1 tl, k, v => if k1 = k then .cons k1 v tl else .cons k1 v1 (setF tl k v)

/-- The keys of a dictionary, in order. -/
def keysF : PyFields → List PyKey
  | .nil => []
  | .cons k _ tl => k :: keysF tl

/-- `isinstance(v, dict)`. -/
def isDict : PyVal → Bool
  | .dict _ => true
  | _ => false

/-- `isinstance(v, (list, dict))`: the mutability check of
`_ValueCtxManager.__aenter__`. -/
def isMutable : PyVal → Bool
  | .list _ => true
  | .dict _ => true
  | _ => false

theorem lookupF_setF : ∀ (fs : PyFields) (k k0 : PyKey) (v : PyVal),
    lookupF (setF fs k v) k0 = if k = k0 then some v else lookupF fs k0
  | .nil, k, k0, v => by
    by_cases h : k = k0 <;> simp [setF, lookupF, h]
  | .cons k1 v1 tl, k, k0, v => by
    by_cases h1 : k1 = k
    · subst h1
      by_cases h0 : k1 = k0 <;> simp [setF, lookupF, h0]
    · by_cases h0 : k1 = k0
      · subst h0
        have hne : ¬ k = k1 := fun h => h1 h.symm
        simp [setF, lookupF, h1, hne, lookupF_setF tl k k1 v]
      · simp [setF, lookupF, h1, h0, lookupF_setF tl k k0 v]

theorem setF_self : ∀ (fs : PyFields) (k : PyKey) (v : PyVal),
    lookupF fs k = some v → setF fs k v = fs
  | .nil, k, v, h => by simp [lookupF] at h
  | .cons k1 v1 tl, k, v, h => by
    by_cases h1 : k1 = k
    · subst h1
      simp [lookupF] at h
      simp [setF, h]
    · simp [lookupF, h1] at h
      simp [setF, h1, setF_self tl k v h]

theorem lookupF_eq_none : ∀ (fs : PyFields) (k : PyKey),
    k ∉ keysF fs → lookupF fs k = Option.none
  | .nil, _, _ => rfl
  | .cons k1 v1 tl, k, h => by
    simp [keysF] at h
    have hne : ¬ k1 = k := fun he => h.1 he.symm
    simp [lookupF, hne, lookupF_eq_none tl k h.2]

mutual
/-- Modelled from the spec: the body of `Group.nested_update` is elided
from the source (`config.py` line 143, "Other methods below remain
largely unchanged"), but `Group._get` calls it.  Per spec section 4.4,
the found mapping `current` is merged against the defaults subtree
`defaults`: walking the found entries, a key whose found value and
default value are both mappings is merged recursively, any other found
value overwrites the default at its key (found wins), defaults keys the
found mapping lacks are left injected, and found-only keys are appended
(preserved). -/
def nested_update : PyFields → PyFields → PyFields
  | .nil, defaults => defaults
  | .cons k c tl, defaults =>
    nested_update tl (setF defaults k (mergeEntry c (lookupF defaults k)))

/-- The per-key rule of the merge: both sides mappings merge
recursively, otherwise the found value wins. -/
def mergeEntry : PyVal → Option PyVal → PyVal
  | .dict cfs, some (.dict dfs) => .dict (nested_update cfs dfs)
  | c, _ => c
end

/-- The pointwise merge rule as the spec words it, case by case: key in
neither side absent, defaults-only keys injected, found-only keys
preserved, both-mappings merged recursively, otherwise the found value
wins. -/
def mergeSpecLookup (c d : Option PyVal) : Option PyVal :=
  match c, d with
  | Option.none, Option.none => Option.none
  | Option.none, some dv => some dv
  | some cv, Option.none => some cv
  | some (.dict cfs), some (.dict dfs) => some (.dict (nested_update cfs dfs))
  | some cv, some _ => some cv

theorem mergeSpecLookup_some (c : PyVal) (d : Option PyVal) :
    mergeSpecLookup (some c) d = some (mergeEntry c d) := by
  rcases d with _ | dv
  · cases c <;> simp [mergeSpecLookup, mergeEntry]
  · cases c <;> cases dv <;> simp [mergeSpecLookup, mergeEntry]

theorem nested_update_lookup : ∀ (cur dfl : PyFields) (k : PyKey),
    (keysF cur).Nodup →
    lookupF (nested_update cur dfl) k = mergeSpecLookup (lookupF cur k) (lookupF dfl k)
  | .nil, dfl, k, _ => by
    cases h : lookupF dfl k <;> simp [nested_update, mergeSpecLookup, lookupF, h]
  | .cons k0 c tl, dfl, k, hnd => by
    simp only [keysF, List.nodup_cons] at hnd
    by_cases hk : k0 = k
    · subst hk
      have htl : lookupF tl k0 = Option.none := lookupF_eq_none tl k0 hnd.1
      have h1 : lookupF (PyFields.cons k0 c tl) k0 = some c := by simp [lookupF]
      have h2 : lookupF (setF dfl k0 (mergeEntry c (lookupF dfl k0))) k0
          = some (mergeEntry c (lookupF dfl k0)) := by simp [lookupF_setF]
      rw [nested_update, nested_update_lookup tl _ k0 hnd.2, htl, h1, h2, mergeSpecLookup_some]
      rfl
    · have hne : ¬ k0 = k := hk
      rw [nested_update, nested_update_lookup tl _ k hnd.2]
      simp [lookupF, hne, lookupF_setF]
termination_by cur _ _ _ => sizeOf cur

/-- `Value._get`: return the driver value; on the driver not-found
(`KeyError`, modelled as `Option.none`) return the caller-supplied
override default if one was given, else the bound `self.default`. -/
def Value_get (stored : Option PyVal) (selfDefault : PyVal) (override : Option PyVal) : PyVal :=
  match stored with
  | some v => v
  | Option.none => override.getD selfDefault

/-- `Group._get`: compute the effective default (`self.defaults` unless
an override was supplied), read through `Value._get`, and if the raw
result is a dict, return `nested_update raw default`; otherwise return
the raw value unchanged. -/
def Group_get (stored : Option PyVal) (selfDefaults : PyFields) (override : Option PyFields) : PyVal :=
  let dfl : PyFields := override.getD selfDefaults
  match Value_get stored (.dict selfDefaults) (some (.dict dfl)) with
  | .dict cs => .dict (nested_update cs dfl)
  | raw => raw

mutual
/-- `_str_key_dict(value)` (config.py lines 238-240): recursively cast
all keys in the given dict to `str`.  The comprehension recurses only
into values that are themselves dicts (`_str_key_dict(v) if
isinstance(v, dict) else v`), so dicts nested inside lists are left
untouched. -/
def strKeyVal : PyVal → PyVal
  | .dict fs => .dict (strKeyFields fs)
  | v => v

def strKeyFields : PyFields → PyFields
  | .nil => .nil
  | .cons k v tl => .cons (.kstr (keyStr k)) (strKeyVal v) (strKeyFields tl)
end

/-- `Value.set` (config.py lines 101-104): dict values are passed
through `_str_key_dict` before being handed to the driver, any other
value is handed over unchanged.  The result is the value the driver
stores. -/
def Value_set_stored (value : PyVal) : PyVal :=
  if isDict value then strKeyVal value else value

/-- The value the driver stores when `_ValueCtxManager.__aexit__`
writes back: the exit path calls `self.value_obj.set(self.raw_value)`,
so the write-back goes through exactly the `Value.set` coercion. -/
def rmw_exit_stored (value : PyVal) : PyVal :=
  Value_set_stored value

/-- The defaults of the C1 concrete scenario:
`{"threshold": 5, "flags": {"a": true, "b": false}}`. -/
def c1_defaults : PyFields :=
  .cons (.kstr "threshold") (.int 5)
    (.cons (.kstr "flags")
      (.dict (.cons (.kstr "a") (.bool true) (.cons (.kstr "b") (.bool false) .nil))) .nil)

/-- The stored value of the C1 concrete scenario:
`{"flags": {"b": true, "c": 1}}`. -/
def c1_stored : PyFields :=
  .cons (.kstr "flags")
    (.dict (.cons (.kstr "b") (.bool true) (.cons (.kstr "c") (.int 1) .nil))) .nil

/-- The expected `get()` result of the C1 concrete scenario:
`{"threshold": 5, "flags": {"a": true, "b": true, "c": 1}}`. -/
def c1_expected : PyFields :=
  .cons (.kstr "threshold") (.int 5)
    (.cons (.kstr "flags")
      (.dict (.cons (.kstr "a") (.bool true)
        (.cons (.kstr "b") (.bool true) (.cons (.kstr "c") (.int 1) .nil)))) .nil)

/-- C1: when the driver has a stored mapping, `get()` returns the
recursive merge of the registered defaults with the stored mapping —
pointwise: defaults-only keys are injected, both-mappings keys merge
recursively, keys where either side is a non-mapping take the stored
value, stored-only keys are preserved; a stored non-mapping scalar is
returned unchanged with no merge; and the concrete scenario with
defaults `{"threshold": 5, "flags": {"a": true, "b": false}}` and
stored `{"flags": {"b": true, "c": 1}}` yields
`{"threshold": 5, "flags": {"a": true, "b": true, "c": 1}}`. -/
theorem get_merges_stored_mapping_with_defaults :
    (∀ cs dfl, Group_get (some (.dict cs)) dfl Option.none = .dict (nested_update cs dfl)) ∧
    (∀ cur dfl k, (keysF cur).Nodup →
      lookupF (nested_update cur dfl) k = mergeSpecLookup (lookupF cur k) (lookupF dfl k)) ∧
    (∀ v dfl, isDict v = false → Group_get (some v) dfl Option.none = v) ∧
    (∀ v d o, Value_get (some v) d o = v) ∧
    Group_get (some (.dict c1_stored)) c1_defaults Option.none = .dict c1_expected := by
  refine ⟨fun cs dfl => rfl, nested_update_lookup, ?_, fun v d o => rfl, by decide⟩
  intro v dfl h
  cases v <;> first
    | rfl
    | simp [isDict] at h

/-- Witness for C1: the pointwise merge rule applied to the concrete
scenario at key `"threshold"` (injected default) and the no-duplicate
hypothesis discharged by evaluation. -/
theorem get_merges_stored_mapping_with_defaults_witness :
    (keysF c1_stored).Nodup ∧
    lookupF (nested_update c1_stored c1_defaults) (.kstr "threshold") = some (.int 5) :=
  ⟨by decide,
    (get_merges_stored_mapping_with_defaults.2.1 c1_stored c1_defaults
      (.kstr "threshold") (by decide)).trans (by decide)⟩

/-- Whether key `k` occurs among the keys of `fs`. -/
def memKey (k : PyKey) : PyFields → Bool
  | .nil => false
  | .cons k1 _ tl => k1 = k || memKey k tl

mutual
/-- A well-formed Python value: every dictionary in it has no duplicate
keys (always true of values built by the Python runtime). -/
def wfVal : PyVal → Bool
  | .dict fs => wfFields fs
  | .list xs => wfList xs
  | _ => true

def wfList : PyList → Bool
  | .nil => true
  | .cons v tl => wfVal v && wfList tl

def wfFields : PyFields → Bool
  | .nil => true
  | .cons k v tl => !(memKey k tl) && wfVal v && wfFields tl
end

mutual
theorem mergeEntry_self : ∀ (c : PyVal), wfVal c = true → mergeEntry c (some c) = c
  | .dict cfs, h => by
    rw [mergeEntry, nested_update_eq_self cfs cfs (by simpa [wfVal] using h) (fun _ _ => rfl)]
  | .none, _ => rfl
  | .bool _, _ => rfl
  | .int _, _ => rfl
  | .str _, _ => rfl
  | .list _, _ => rfl

theorem nested_update_eq_self : ∀ (cur dfl : PyFields),
    wfFields cur = true →
    (∀ k, memKey k cur = true → lookupF dfl k = lookupF cur k) →
    nested_update cur dfl = dfl
  | .nil, dfl, _, _ => rfl
  | .cons k0 c tl, dfl, hwf, hsub => by
    simp only [wfFields, Bool.and_eq_true, Bool.not_eq_true'] at hwf
    have hk0 : lookupF dfl k0 = some c := by
      rw [hsub k0 (by simp [memKey])]
      simp [lookupF]
    rw [nested_update, hk0, mergeEntry_self c hwf.1.2, setF_self dfl k0 c hk0]
    apply nested_update_eq_self tl dfl hwf.2
    intro k hk
    have hkk0 : ¬ k0 = k := by
      intro he
      rw [he] at hwf
      rw [hk] at hwf
      exact Bool.true_eq_false.mp hwf.1.1
    rw [hsub k (by simp [memKey, hk])]
    simp [lookupF, hkk0]
end

mutual
/-- The object graph of a registered schema: every Python object in the
schema carries its identity (`id()`), modelled as a `Nat` tag; its
payload is abstracted away and only the tree of sub-objects is kept. -/
inductive TVal where
  | node (tag : Nat) (cs : TForest)
  deriving DecidableEq

/-- The sub-objects of a schema object. -/
inductive TForest where
  | nil
  | cons (t : TVal) (tl : TForest)
  deriving DecidableEq
end

mutual
/-- `pickle.loads(pickle.dumps(x, -1))` as performed by the
`Config.defaults` and `Group.defaults` properties: a deep copy that
allocates fresh objects for the whole tree.  Freshness is modelled by
an allocation counter: every object of the copy receives a tag at or
above the starting counter `c`, and the final counter is returned. -/
def retagVal : Nat → TVal → TVal × Nat
  | c, .node _ cs =>
    let r := retagForest (c + 1) cs
    (.node c r.1, r.2)

def retagForest : Nat → TForest → TForest × Nat
  | c, .nil => (.nil, c)
  | c, .cons t tl =>
    let r1 := retagVal c t
    let r2 := retagForest r1.2 tl
    (.cons r1.1 r2.1, r2.2)
end

mutual
/-- All object identities occurring in a schema tree. -/
def tagsVal : TVal → List Nat
  | .node t cs => t :: tagsForest cs

def tagsForest : TForest → List Nat
  | .nil => []
  | .cons t tl => tagsVal t ++ tagsForest tl
end

mutual
/-- In-place mutation of the object with identity `t`: every occurrence
of that object is replaced by `f` applied to it, everything else is
untouched. -/
def mutateVal (t : Nat) (f : TVal → TVal) : TVal → TVal
  | .node tg cs => if tg = t then f (.node tg cs) else .node tg (mutateForest t f cs)

def mutateForest (t : Nat) (f : TVal → TVal) : TForest → TForest
  | .nil => .nil
  | .cons v tl => .cons (mutateVal t f v) (mutateForest t f tl)
end

mutual
/-- Forget object identities, keeping the tree: two schemas are
deep-equal exactly when their identity-erased trees are equal. -/
def zeroVal : TVal → TVal
  | .node _ cs => .node 0 (zeroForest cs)

def zeroForest : TForest → TForest
  | .nil => .nil
  | .cons t tl => .cons (zeroVal t) (zeroForest tl)
end

mutual
theorem mutateVal_not_mem : ∀ (v : TVal) (t : Nat) (f : TVal → TVal),
    t ∉ tagsVal v → mutateVal t f v = v
  | .node tg cs, t, f, h => by
    simp only [tagsVal, List.mem_cons] at h
    have h1 : ¬ tg = t := fun he => h (Or.inl he.symm)
    rw [mutateVal]
    simp only [h1, if_false]
    rw [mutateForest_not_mem cs t f (fun hm => h (Or.inr hm))]

theorem mutateForest_not_mem : ∀ (cs : TForest) (t : Nat) (f : TVal → TVal),
    t ∉ tagsForest cs → mutateForest t f cs = cs
  | .nil, _, _, _ => rfl
  | .cons v tl, t, f, h => by
    simp only [tagsForest, List.mem_append] at h
    rw [mutateForest, mutateVal_not_mem v t f (fun hm => h (Or.inl hm)),
      mutateForest_not_mem tl t f (fun hm => h (Or.inr hm))]
end

mutual
theorem retagVal_le : ∀ (c : Nat) (v : TVal), c ≤ (retagVal c v).2
  | c, .node _ cs => by
    rw [retagVal]
    exact le_trans (Nat.le_succ c) (retagForest_le (c + 1) cs)

theorem retagForest_le : ∀ (c : Nat) (cs : TForest), c ≤ (retagForest c cs).2
  | _, .nil => le_refl _
  | c, .cons t tl => by
    rw [retagForest]
    exact le_trans (retagVal_le c t) (retagForest_le (retagVal c t).2 tl)
end

mutual
theorem retagVal_tags_ge : ∀ (c : Nat) (v : TVal) (x : Nat),
    x ∈ tagsVal (retagVal c v).1 → c ≤ x
  | c, .node tg cs, x, h => by
    rw [retagVal] at h
    simp only [tagsVal, List.mem_cons] at h
    rcases h with h | h
    · exact h ▸ le_refl c
    · exact le_trans (Nat.le_succ c) (retagForest_tags_ge (c + 1) cs x h)

theorem retagForest_tags_ge : ∀ (c : Nat) (cs : TForest) (x : Nat),
    x ∈ tagsForest (retagForest c cs).1 → c ≤ x
  | _, .nil, x, h => by simp [retagForest, tagsForest] at h
  | c, .cons t tl, x, h => by
    rw [retagForest] at h
    simp only [tagsForest, List.mem_append] at h
    rcases h with h | h
    · exact retagVal_tags_ge c t x h
    · exact le_trans (retagVal_le c t) (retagForest_tags_ge (retagVal c t).2 tl x h)
end

mutual
theorem retagVal_zero : ∀ (c : Nat) (v : TVal), zeroVal (retagVal c v).1 = zeroVal v
  | c, .node tg cs => by
    rw [retagVal, zeroVal, zeroVal, retagForest_zero (c + 1) cs]

theorem retagForest_zero : ∀ (c : Nat) (cs : TForest),
    zeroForest (retagForest c cs).1 = zeroForest cs
  | _, .nil => rfl
  | c, .cons t tl => by
    rw [retagForest, zeroForest, zeroForest, retagVal_zero c t,
      retagForest_zero (retagVal c t).2 tl]
end

/-- C6: with nothing stored at the address, `get()` on a `Value`
returns the bound default (or the per-call override when given), and
`get()` on a `Group` returns exactly the registered defaults subtree;
the driver not-found is consumed by this fallback and never escapes;
and the defaults handed out are a fresh deep copy of the registered
schema: deep-equal to it, yet sharing no object identity with it, so
mutating any object of the returned copy leaves the registered schema
unchanged. -/
theorem get_on_not_found_returns_default :
    (∀ d, Value_get Option.none d Option.none = d) ∧
    (∀ d o, Value_get Option.none d (some o) = o) ∧
    (∀ dfs, wfFields dfs = true → Group_get Option.none dfs Option.none = .dict dfs) ∧
    (∀ (schema : TVal) (c : Nat), (∀ x ∈ tagsVal schema, x < c) →
      zeroVal (retagVal c schema).1 = zeroVal schema ∧
      ∀ t (f : TVal → TVal), t ∈ tagsVal (retagVal c schema).1 →
        mutateVal t f schema = schema) := by
  refine ⟨fun d => rfl, fun d o => rfl, ?_, ?_⟩
  · intro dfs h
    show PyVal.dict (nested_update dfs dfs) = .dict dfs
    rw [nested_update_eq_self dfs dfs h (fun _ _ => rfl)]
  · intro schema c hc
    refine ⟨retagVal_zero c schema, ?_⟩
    intro t f ht
    apply mutateVal_not_mem
    intro hmem
    exact absurd (retagVal_tags_ge c schema t ht) (not_le.mpr (hc t hmem))

/-- Witness for C6: the well-formedness and freshness hypotheses
discharged on a two-node schema copied with counter 10. -/
theorem get_on_not_found_returns_default_witness :
    wfFields c1_defaults = true ∧
    Group_get Option.none c1_defaults Option.none = .dict c1_defaults ∧
    mutateVal 0 (fun _ => .node 99 .nil)
      (.node 0 (.cons (.node 1 .nil) .nil)) ≠ .node 0 (.cons (.node 1 .nil) .nil) ∧
    (∀ t (f : TVal → TVal),
      t ∈ tagsVal (retagVal 10 (.node 0 (.cons (.node 1 .nil) .nil))).1 →
      mutateVal t f (.node 0 (.cons (.node 1 .nil) .nil)) = .node 0 (.cons (.node 1 .nil) .nil)) :=
  ⟨by decide,
    get_on_not_found_returns_default.2.2.1 c1_defaults (by decide),
    by decide,
    (get_on_not_found_returns_default.2.2.2 (.node 0 (.cons (.node 1 .nil) .nil)) 10
      (by decide)).2⟩

/-- Whether a dictionary key is already a string. -/
def isKstr : PyKey → Bool
  | .kstr _ => true
  | .kint _ => false

mutual
/-- All keys reachable through dict values alone are strings — exactly
the keys `_str_key_dict` can reach. -/
def strKeysVal : PyVal → Bool
  | .dict fs => strKeysFields fs
  | _ => true

def strKeysFields : PyFields → Bool
  | .nil => true
  | .cons k v tl => isKstr k && strKeysVal v && strKeysFields tl
end

mutual
/-- All keys of every dict anywhere in the value — including dicts
nested inside lists — are strings. -/
def deepKeysStr : PyVal → Bool
  | .dict fs => deepKeysStrF fs
  | .list xs => deepKeysStrL xs
  | _ => true

def deepKeysStrL : PyList → Bool
  | .nil => true
  | .cons v tl => deepKeysStr v && deepKeysStrL tl

def deepKeysStrF : PyFields → Bool
  | .nil => true
  | .cons k v tl => isKstr k && deepKeysStr v && deepKeysStrF tl
end

mutual
theorem strKeyVal_id : ∀ (v : PyVal), strKeysVal v = true → strKeyVal v = v
  | .dict fs, h => by
    rw [strKeyVal, strKeyFields_id fs (by simpa [strKeysVal] using h)]
  | .none, _ => rfl
  | .bool _, _ => rfl
  | .int _, _ => rfl
  | .str _, _ => rfl
  | .list _, _ => rfl

theorem strKeyFields_id : ∀ (fs : PyFields), strKeysFields fs = true → strKeyFields fs = fs
  | .nil, _ => rfl
  | .cons k v tl, h => by
    simp only [strKeysFields, Bool.and_eq_true] at h
    have hk : PyKey.kstr (keyStr k) = k := by
      cases k with
      | kstr s => rfl
      | kint n => simp [isKstr] at h
    rw [strKeyFields, hk, strKeyFields_id tl h.2, strKeyVal_id v h.1.2]
end

mutual
theorem strKeyVal_strKeys : ∀ (v : PyVal), strKeysVal (strKeyVal v) = true
  | .dict fs => by rw [strKeyVal]; exact strKeyFields_strKeys fs
  | .none => rfl
  | .bool _ => rfl
  | .int _ => rfl
  | .str _ => rfl
  | .list _ => rfl

theorem strKeyFields_strKeys : ∀ (fs : PyFields), strKeysFields (strKeyFields fs) = true
  | .nil => rfl
  | .cons k v tl => by
    rw [strKeyFields]
    simp only [strKeysFields, Bool.and_eq_true]
    exact ⟨⟨rfl, strKeyVal_strKeys v⟩, strKeyFields_strKeys tl⟩
end

/-! ### The scoped read-modify-write working copy and its shallow snapshot

`_ValueCtxManager.__aenter__` stores
`self.__original_value = self.raw_value.copy()` — a SHALLOW copy: the
snapshot owns its top-level key table but shares every nested container
object with the working value.  The model makes that sharing explicit:
the working dict is a table of slots, a slot is either an immediate
scalar or a reference into a heap of nested dicts; the snapshot is the
slot table as it was at acquisition, over the same heap. -/

/-- A top-level slot of the working dict: an immediate (immutable)
value, or a reference to a shared nested dict object. -/
inductive Slot where
  | sc (v : PyVal)
  | ref (r : Nat)
  deriving DecidableEq

/-- Association-list assignment with Python dict semantics. -/
def setSA {β : Type} : List (String × β) → String → β → List (String × β)
  | [], k, v => [(k, v)]
  | (k1, v1) :: tl, k, v =>
    if k1 = k then (k1, v) :: tl else (k1, v1) :: setSA tl k v

/-- The nested dict object stored on the heap under reference `r`
(a missing reference reads as empty, never exercised by the model). -/
def heapGet : List (Nat × List (String × PyVal)) → Nat → List (String × PyVal)
  | [], _ => []
  | (r1, d) :: tl, r => if r1 = r then d else heapGet tl r

/-- In-place update of the heap object `r` at key `k`. -/
def heapSet (h : List (Nat × List (String × PyVal))) (r : Nat) (k : String) (v : PyVal) :
    List (Nat × List (String × PyVal)) :=
  h.map (fun e => if e.1 = r then (e.1, setSA e.2 k v) else e)

/-- One mutation performed by the body of a scoped read-modify-write
section: rebinding a top-level key of the working dict, or an in-place
update inside a nested dict object (which the snapshot shares). -/
inductive Mut where
  | setTop (k : String) (s : Slot)
  | setNested (r : Nat) (k : String) (v : PyVal)

/-- Whether a mutation only rebinds a top-level key. -/
def isSetTop : Mut → Bool
  | .setTop _ _ => true
  | .setNested _ _ _ => false

/-- Apply one body mutation to the working dict and the shared heap. -/
def applyMut : Mut → List (String × Slot) × List (Nat × List (String × PyVal)) →
    List (String × Slot) × List (Nat × List (String × PyVal))
  | .setTop k s, (top, heap) => (setSA top k s, heap)
  | .setNested r k v, (top, heap) => (top, heapSet heap r k v)

/-- Run the section body: apply its mutations in order. -/
def runBody (muts : List Mut)
    (st : List (String × Slot) × List (Nat × List (String × PyVal))) :
    List (String × Slot) × List (Nat × List (String × PyVal)) :=
  muts.foldl (fun st m => applyMut m st) st

/-- Convert a nested dict object to a `PyVal` dictionary. -/
def fieldsOf : List (String × PyVal) → PyFields
  | [] => .nil
  | (k, v) :: tl => .cons (.kstr k) v (fieldsOf tl)

/-- The value a slot denotes, resolving references through the heap. -/
def evalSlot (heap : List (Nat × List (String × PyVal))) : Slot → PyVal
  | .sc v => v
  | .ref r => .dict (fieldsOf (heapGet heap r))

def evalSlots (heap : List (Nat × List (String × PyVal))) :
    List (String × Slot) → PyFields
  | [] => .nil
  | (k, s) :: tl => .cons (.kstr k) (evalSlot heap s) (evalSlots heap tl)

/-- The Python value a slot table denotes over a heap. -/
def evalTop (top : List (String × Slot)) (heap : List (Nat × List (String × PyVal))) : PyVal :=
  .dict (evalSlots heap top)

/-- `_ValueCtxManager.__aexit__` over a dict working value: compute
`_str_key_dict(self.raw_value)` and call `set` iff it differs from
`self.__original_value` — the shallow snapshot's slot table `top0`
evaluated over the heap as it stands at exit. -/
def rmw_writes_back (top0 : List (String × Slot))
    (heap0 : List (Nat × List (String × PyVal))) (muts : List Mut) : Bool :=
  let st := runBody muts (top0, heap0)
  ! decide (strKeyVal (evalTop st.1 st.2) = evalTop top0 st.2)

theorem runBody_setTop_heap : ∀ (muts : List Mut)
    (st : List (String × Slot) × List (Nat × List (String × PyVal))),
    (∀ m ∈ muts, isSetTop m = true) → (runBody muts st).2 = st.2
  | [], _, _ => rfl
  | m :: tl, st, h => by
    have hm := h m (List.mem_cons_self m tl)
    cases m with
    | setTop k s =>
      rw [runBody, List.foldl_cons]
      exact runBody_setTop_heap tl _ (fun m1 hm1 => h m1 (List.mem_cons_of_mem (Mut.setTop k s) hm1))
    | setNested r k v => simp [isSetTop] at hm

/-- C2 counterexample: a section over working value
`{"flags": {"a": true}}` whose body performs the in-place nested
mutation `value["flags"]["a"] = false` changes the effective value, yet
triggers no write: the shallow snapshot shares the nested dict, so the
exit comparison sees two equal objects. -/
theorem rmw_nested_mutation_not_written_back :
    evalTop [("flags", Slot.ref 0)]
        (runBody [Mut.setNested 0 "a" (PyVal.bool false)]
          ([("flags", Slot.ref 0)], [(0, [("a", PyVal.bool true)])])).2
      ≠ evalTop [("flags", Slot.ref 0)] [(0, [("a", PyVal.bool true)])] ∧
    rmw_writes_back [("flags", Slot.ref 0)] [(0, [("a", PyVal.bool true)])]
      [Mut.setNested 0 "a" (PyVal.bool false)] = false := by
  constructor
  · intro h
    simp [runBody, applyMut, heapSet, setSA, evalTop, evalSlots, evalSlot, heapGet,
      fieldsOf] at h
  · rfl

/-- C2 amended: on normal exit the working copy is written back iff its
string-key-normalized value differs from the snapshot *as the snapshot
stands at exit* — the `.copy()` snapshot is shallow, so in-place
mutations of nested containers are visible through it and never
detected; in particular a section that mutates nothing triggers no
write, and for a body that only rebinds top-level keys the write-back
happens exactly when the normalized final value differs from the value
read at acquisition. -/
theorem rmw_writes_back_iff_differs_from_aliased_snapshot :
    (∀ top0 heap0 muts,
      rmw_writes_back top0 heap0 muts = true ↔
        strKeyVal (evalTop (runBody muts (top0, heap0)).1 (runBody muts (top0, heap0)).2)
          ≠ evalTop top0 (runBody muts (top0, heap0)).2) ∧
    (∀ top0 heap0, strKeysVal (evalTop top0 heap0) = true →
      rmw_writes_back top0 heap0 [] = false) ∧
    (∀ top0 heap0 muts, (∀ m ∈ muts, isSetTop m = true) →
      strKeysVal (evalTop (runBody muts (top0, heap0)).1 heap0) = true →
      (rmw_writes_back top0 heap0 muts = true ↔
        evalTop (runBody muts (top0, heap0)).1 heap0 ≠ evalTop top0 heap0)) := by
  refine ⟨?_, ?_, ?_⟩
  · intro top0 heap0 muts
    simp [rmw_writes_back]
  · intro top0 heap0 h
    have : runBody [] (top0, heap0) = (top0, heap0) := rfl
    simp [rmw_writes_back, this, strKeyVal_id _ h]
  · intro top0 heap0 muts hmut h
    have hh : (runBody muts (top0, heap0)).2 = heap0 := runBody_setTop_heap muts _ hmut
    simp [rmw_writes_back, hh, strKeyVal_id _ h]

/-- Witness for C2 amended: a body that rebinds the top-level key
`"y"` over working value `{"x": 1}` is detected and written back, and
a body that mutates nothing triggers no write. -/
theorem rmw_writes_back_iff_differs_witness :
    rmw_writes_back [("x", Slot.sc (PyVal.int 1))] [] [] = false ∧
    rmw_writes_back [("x", Slot.sc (PyVal.int 1))] []
      [Mut.setTop "y" (Slot.sc (PyVal.int 2))] = true :=
  ⟨rmw_writes_back_iff_differs_from_aliased_snapshot.2.1
      [("x", Slot.sc (PyVal.int 1))] [] (by decide),
    (rmw_writes_back_iff_differs_from_aliased_snapshot.2.2
      [("x", Slot.sc (PyVal.int 1))] [] [Mut.setTop "y" (Slot.sc (PyVal.int 2))]
      (by decide) (by decide)).mpr (by decide)⟩

/-- The error kinds the config layer distinguishes: the driver
not-found (`KeyError`), the `TypeError` raised for a non-container
working value, a driver failure or cancellation while awaiting the
initial read, and an exception or cancellation inside the section
body. -/
inductive PyErr where
  | keyError
  | typeError
  | readFailure
  | bodyFailure
  deriving DecidableEq

/-- The observable outcome of one `async with _ValueCtxManager(...)`
run: whether the address lock is still held afterwards, whether the
body was entered, what was raised, and what (if anything) was handed to
the driver. -/
structure SectionResult where
  lockHeldAfter : Bool
  entered : Bool
  raised : Option PyErr
  stored : Option PyVal

/-- One run of `async with` over `_ValueCtxManager` (config.py lines
57-76).  Python calls `__aenter__`: it acquires the lock when
`acquire_lock` is set, awaits the read coro, and raises `TypeError`
unless the value is a list or dict — and when `__aenter__` raises,
`__aexit__` is never invoked, so those paths keep the lock.  Otherwise
the body runs (possibly raising), and `__aexit__` always runs: it
compares the string-key-normalized working value with the snapshot,
writes back through `Value.set` iff they differ, and releases the lock
in its `finally`.  `readOutcome` models awaiting `self.coro`
(`Value._get` has already converted driver not-found into the default,
so an error here is a driver failure or a cancellation mid-read);
`body` is the final working value the body leaves; `bodyFails` tells
whether the body raised. -/
def runSection (acquireLock : Bool) (readOutcome : Except PyErr PyVal)
    (bodyFails : Bool) (body : PyVal → PyVal) : SectionResult :=
  match readOutcome with
  | .error e =>
    { lockHeldAfter := acquireLock, entered := false, raised := some e, stored := Option.none }
  | .ok v =>
    if isMutable v then
      let v1 := body v
      { lockHeldAfter := false
        entered := true
        raised := if bodyFails then some PyErr.bodyFailure else Option.none
        stored := if strKeyVal v1 = v then Option.none else some (Value_set_stored v1) }
    else
      { lockHeldAfter := acquireLock, entered := false, raised := some PyErr.typeError,
        stored := Option.none }

/-- C3 counterexample: with lock acquisition enabled, a section whose
initial read yields the scalar `5` (the `TypeError` path of
`__aenter__`), and likewise one whose read fails, terminates with the
address lock still held: `__aenter__` raised after acquiring, so
`__aexit__` — and with it the release — never ran. -/
theorem rmw_enter_failure_leaves_lock_held :
    (runSection true (Except.ok (PyVal.int 5)) false id).lockHeldAfter = true ∧
    (runSection true (Except.error PyErr.readFailure) false id).lockHeldAfter = true := by
  exact ⟨rfl, rfl⟩

/-- C3 amended: the lock is acquired before the initial read, and it is
still held on exit exactly when it was acquired and the section body
was never entered — i.e. every exit path reached after a successful
`__aenter__` (normal completion, an exception or cancellation in the
body) releases the lock via the `finally` of `__aexit__`, but when
`__aenter__` itself raises after acquiring (read failure, cancellation
during the read, or the non-container `TypeError`), `__aexit__` never
runs and the lock is left held. -/
theorem lock_held_after_iff_enter_failed :
    ∀ (acq : Bool) (r : Except PyErr PyVal) (bf : Bool) (body : PyVal → PyVal),
      (runSection acq r bf body).lockHeldAfter
        = (acq && !(runSection acq r bf body).entered) := by
  intro acq r bf body
  cases r with
  | error e => simp [runSection]
  | ok v =>
    by_cases hm : isMutable v <;> simp [runSection, hm]

/-- C8: a scoped read-modify-write acquisition whose retrieved value is
neither a list nor a dict fails on entry with a `TypeError` — an error
kind distinct from the driver's not-found `KeyError` — the body never
runs, and the section hands nothing to the driver. -/
theorem rmw_on_non_container_fails_without_write :
    ∀ (acq : Bool) (v : PyVal) (bf : Bool) (body : PyVal → PyVal),
      isMutable v = false →
      (runSection acq (Except.ok v) bf body).raised = some PyErr.typeError ∧
      PyErr.typeError ≠ PyErr.keyError ∧
      (runSection acq (Except.ok v) bf body).entered = false ∧
      (runSection acq (Except.ok v) bf body).stored = Option.none := by
  intro acq v bf body hm
  refine ⟨?_, by decide, ?_, ?_⟩ <;> simp [runSection, hm]

/-- Witness for C8: the scalar `5` is not a mutable container, and the
section over it persists nothing. -/
theorem rmw_on_non_container_fails_without_write_witness :
    isMutable (PyVal.int 5) = false ∧
    (runSection true (Except.ok (PyVal.int 5)) false id).stored = Option.none :=
  ⟨by decide,
    (rmw_on_non_container_fails_without_write true (PyVal.int 5) false id (by decide)).2.2.2⟩

/-- Modelled from the spec: `IdentifierData` is defined in
`redbot/core/_drivers`, which is outside the reviewed source; per spec
section 3 a path address is an immutable value object compared and
hashed structurally, field by field.  The fields follow the
construction site in `Config._get_base_group`. -/
structure IdentifierData where
  cog_name : String
  uuid : String
  category : String
  primary_keys : List String
  identifiers : List String
  primary_key_len : Nat
  is_custom : Bool
  deriving DecidableEq

/-- Lookup in the lock cache, keyed by structural address equality. -/
def lookupLock : List (IdentifierData × Nat) → IdentifierData → Option Nat
  | [], _ => Option.none
  | (a, l) :: tl, addr => if a = addr then some l else lookupLock tl addr

/-- `Value.get_lock` (config.py lines 88-90), backed by
`Config._lock_cache.setdefault(self.identifier_data, asyncio.Lock())`:
return the cached lock for this address, or cache and return the fresh
lock `fresh` when the address has none.  (`_lock_cache` is a
weak-value dict, so the entry survives while an overlapping section
still references the lock — the situation of interest.) -/
def get_lock (cache : List (IdentifierData × Nat)) (addr : IdentifierData) (fresh : Nat) :
    Nat × List (IdentifierData × Nat) :=
  match lookupLock cache addr with
  | some l => (l, cache)
  | Option.none => (fresh, cache ++ [(addr, fresh)])

theorem lookupLock_append_self : ∀ (cache : List (IdentifierData × Nat))
    (addr : IdentifierData) (l : Nat),
    lookupLock cache addr = Option.none →
    lookupLock (cache ++ [(addr, l)]) addr = some l
  | [], addr, l, _ => by simp [lookupLock]
  | (a, l1) :: tl, addr, l, h => by
    by_cases ha : a = addr
    · simp [lookupLock, ha] at h
    · rw [lookupLock, if_neg ha] at h
      rw [List.cons_append, lookupLock, if_neg ha]
      exact lookupLock_append_self tl addr l h

/-- The protocol phase of one task running a locked RMW section:
not yet started, lock acquired, store read into the local working
value, mutated value written back, lock released and finished. -/
inductive Phase where
  | start
  | locked
  | haveRead
  | wrote
  | done
  deriving DecidableEq

/-- One task: its phase and its local working value. -/
structure TaskSt where
  ph : Phase
  loc : Nat
  deriving DecidableEq

/-- The shared state: who holds the address lock (`false` = first
task, `true` = second task), the driver's stored value, and the two
tasks. -/
structure Sys where
  lock : Option Bool
  store : Nat
  tA : TaskSt
  tB : TaskSt
  deriving DecidableEq

/-- One cooperative scheduler step: task `i` runs its next
suspension-to-suspension segment of the locked RMW protocol of
`_ValueCtxManager` — acquire the shared per-address lock (no state
change while the other task holds it: `await lock.acquire()` just
parks the task), read the store into the local working value, write
the mutated value back, release.  `f i` is task `i`'s mutation of the
value it read; both bodies are taken to be dirty so the write-back
happens. -/
def step (f : Bool → Nat → Nat) (i : Bool) (s : Sys) : Sys :=
  let t := if i then s.tB else s.tA
  match t.ph with
  | .start =>
    match s.lock with
    | Option.none =>
      if i then { s with lock := some true, tB := { t with ph := .locked } }
      else { s with lock := some false, tA := { t with ph := .locked } }
    | some _ => s
  | .locked =>
    if i then { s with tB := { ph := .haveRead, loc := s.store } }
    else { s with tA := { ph := .haveRead, loc := s.store } }
  | .haveRead =>
    if i then { s with store := f true t.loc, tB := { t with ph := .wrote } }
    else { s with store := f false t.loc, tA := { t with ph := .wrote } }
  | .wrote =>
    if i then { s with lock := Option.none, tB := { t with ph := .done } }
    else { s with lock := Option.none, tA := { t with ph := .done } }
  | .done => s

/-- Both tasks ready, nothing stored but the initial value. -/
def initSys (v0 : Nat) : Sys :=
  { lock := Option.none, store := v0,
    tA := { ph := .start, loc := 0 }, tB := { ph := .start, loc := 0 } }

/-- Run an arbitrary interleaving, given as the list of scheduler
choices. -/
def runSys (f : Bool → Nat → Nat) (v0 : Nat) (cs : List Bool) : Sys :=
  cs.foldl (fun s c => step f c s) (initSys v0)

/-- What holds of a task inside its critical section, relative to the
store value `b` it found on acquisition and its mutation `g`. -/
def critInv (g : Nat → Nat) (b : Nat) (store : Nat) (t : TaskSt) : Prop :=
  match t.ph with
  | .start => False
  | .done => False
  | .locked => store = b
  | .haveRead => store = b ∧ t.loc = b
  | .wrote => t.loc = b ∧ store = g b

/-- The global invariant: the lock is held exactly by the task inside
its critical section, at most one task is inside, and the store/local
values record which task went first. -/
def Inv (f : Bool → Nat → Nat) (v0 : Nat) (s : Sys) : Prop :=
  match s.tA.ph, s.tB.ph with
  | .start, .start => s.lock = Option.none ∧ s.store = v0
  | .done, .start => s.lock = Option.none ∧ s.tA.loc = v0 ∧ s.store = f false v0
  | .start, .done => s.lock = Option.none ∧ s.tB.loc = v0 ∧ s.store = f true v0
  | .done, .done =>
    s.lock = Option.none ∧
      ((s.tA.loc = v0 ∧ s.tB.loc = f false v0 ∧ s.store = f true (f false v0)) ∨
        (s.tB.loc = v0 ∧ s.tA.loc = f true v0 ∧ s.store = f false (f true v0)))
  | .start, _ => s.lock = some true ∧ critInv (f true) v0 s.store s.tB
  | .done, _ => s.lock = some true ∧ s.tA.loc = v0 ∧ critInv (f true) (f false v0) s.store s.tB
  | _, .start => s.lock = some false ∧ critInv (f false) v0 s.store s.tA
  | _, .done => s.lock = some false ∧ s.tB.loc = v0 ∧ critInv (f false) (f true v0) s.store s.tA
  | _, _ => False

theorem inv_step (f : Bool → Nat → Nat) (v0 : Nat) (s : Sys) (c : Bool)
    (h : Inv f v0 s) : Inv f v0 (step f c s) := by
  rcases s with ⟨lk, st, ⟨phA, lA⟩, ⟨phB, lB⟩⟩
  cases c <;> cases phA <;> cases phB <;>
    simp_all [Inv, critInv, step]

theorem inv_fold (f : Bool → Nat → Nat) (v0 : Nat) :
    ∀ (cs : List Bool) (s : Sys), Inv f v0 s →
      Inv f v0 (cs.foldl (fun s c => step f c s) s)
  | [], _, h => h
  | c :: tl, s, h => inv_fold f v0 tl _ (inv_step f v0 s c h)

/-- C4: under any interleaving in which both locked RMW sections on
the same address run to completion, the sections are serialized: one
task read the initial value and the other task's read observed the
first task's completed write — never the pre-mutation value — and the
final store composes the two mutations in that order; moreover
`get_lock` hands back the same cached lock for an address that already
has one. -/
theorem concurrent_rmw_sections_serialized :
    (∀ (f : Bool → Nat → Nat) (v0 : Nat) (cs : List Bool),
      (runSys f v0 cs).tA.ph = .done → (runSys f v0 cs).tB.ph = .done →
      (((runSys f v0 cs).tA.loc = v0 ∧ (runSys f v0 cs).tB.loc = f false v0 ∧
          (runSys f v0 cs).store = f true (f false v0)) ∨
        ((runSys f v0 cs).tB.loc = v0 ∧ (runSys f v0 cs).tA.loc = f true v0 ∧
          (runSys f v0 cs).store = f false (f true v0)))) ∧
    (∀ (cache : List (IdentifierData × Nat)) (addr : IdentifierData) (f1 f2 : Nat),
      (get_lock (get_lock cache addr f1).2 addr f2).1 = (get_lock cache addr f1).1) := by
  constructor
  · intro f v0 cs hA hB
    have h := inv_fold f v0 cs (initSys v0) (by simp [Inv, initSys])
    rw [show cs.foldl (fun s c => step f c s) (initSys v0) = runSys f v0 cs from rfl] at h
    simp only [Inv, hA, hB] at h
    exact h.2
  · intro cache addr f1 f2
    cases h : lookupLock cache addr with
    | some l => simp [get_lock, h]
    | none => simp [get_lock, h, lookupLock_append_self cache addr f1 h]

/-- Witness for C4: the interleaving that runs the first task to
completion and then the second, with mutations `+1` and `*2` from
initial store `0`: the second read observes `1`, the final store is
`2`. -/
theorem concurrent_rmw_sections_serialized_witness :
    (runSys (fun i n => if i then n * 2 else n + 1) 0
        [false, false, false, false, true, true, true, true]).tA.ph = .done ∧
    (((runSys (fun i n => if i then n * 2 else n + 1) 0
        [false, false, false, false, true, true, true, true]).tA.loc = 0 ∧
      (runSys (fun i n => if i then n * 2 else n + 1) 0
        [false, false, false, false, true, true, true, true]).tB.loc = 1 ∧
      (runSys (fun i n => if i then n * 2 else n + 1) 0
        [false, false, false, false, true, true, true, true]).store = 2) ∨
     ((runSys (fun i n => if i then n * 2 else n + 1) 0
        [false, false, false, false, true, true, true, true]).tB.loc = 0 ∧
      (runSys (fun i n => if i then n * 2 else n + 1) 0
        [false, false, false, false, true, true, true, true]).tA.loc = 0 ∧
      (runSys (fun i n => if i then n * 2 else n + 1) 0
        [false, false, false, false, true, true, true, true]).store = 1)) :=
  ⟨by decide, by
    have h := concurrent_rmw_sections_serialized.1 (fun i n => if i then n * 2 else n + 1) 0
      [false, false, false, false, true, true, true, true] (by decide) (by decide)
    simpa using h⟩


/-- The constructor-relevant state of one `Config` instance
(`Config.__init__`, config.py lines 186-193): the owner key and the
arguments recorded at construction; `defaults` maps a category name to
its registered schema (`self._defaults = defaults or {}`). -/
structure ConfigObj where
  cog_name : String
  unique_identifier : String
  driver : Nat
  force_registration : Bool
  defaults : PyFields
  deriving DecidableEq

/-- The field assignments performed by `Config.__init__`. -/
def mkConfigObj (cog uid : String) (driver : Nat) (fr : Bool) (dfl : Option PyFields) :
    ConfigObj :=
  ConfigObj.mk cog uid driver fr (dfl.getD .nil)

/-- The module-level `_config_cache` with instance identity made
explicit: `entries` maps an owner key to the id of its live instance,
`heap` holds each live instance's state, `next` is the next fresh
instance id. -/
structure ConfigCache where
  entries : List ((String × String) × Nat)
  heap : List (Nat × ConfigObj)
  next : Nat
  deriving DecidableEq

def lookupKeyC : List ((String × String) × Nat) → String × String → Option Nat
  | [], _ => Option.none
  | (k, i) :: tl, key => if k = key then some i else lookupKeyC tl key

def heapGetC : List (Nat × ConfigObj) → Nat → Option ConfigObj
  | [], _ => Option.none
  | (i1, o) :: tl, i => if i1 = i then some o else heapGetC tl i

/-- `ConfigMeta.__call__` (config.py lines 26-36): if the
`(cog_name, unique_identifier)` key has a live cached instance, return
it — `Config.__init__` is not re-run and the arguments of the second
call are dropped; otherwise construct the instance (recording
`driver`, `force_registration` and `defaults or {}`) and cache it. -/
def configMetaCall (st : ConfigCache) (cog uid : String) (driver : Nat)
    (fr : Bool) (dfl : Option PyFields) : Nat × ConfigCache :=
  match lookupKeyC st.entries (cog, uid) with
  | some i => (i, st)
  | Option.none =>
    (st.next,
      ConfigCache.mk (st.entries ++ [((cog, uid), st.next)])
        (st.heap ++ [(st.next, mkConfigObj cog uid driver fr dfl)]) (st.next + 1))

/-- Python `dict.update(new)` over an insertion-ordered dict. -/
def updateF : PyFields → PyFields → PyFields
  | old, .nil => old
  | old, .cons k v tl => updateF (setF old k v) tl

/-- Modelled from the spec: `register_global` delegates to
`Config._register_default`, whose body is elided from the source
(config.py line 227); per spec section 4.2 the supplied schema is
merged into the owner's defaults for the category — values already
present for the same key are overwritten, new keys are added. -/
def registerDefault (o : ConfigObj) (category : String) (schema : PyFields) : ConfigObj :=
  let old : PyFields :=
    match lookupF o.defaults (.kstr category) with
    | some (.dict prev) => prev
    | _ => .nil
  ConfigObj.mk o.cog_name o.unique_identifier o.driver o.force_registration
    (setF o.defaults (.kstr category) (.dict (updateF old schema)))

/-- In-place update of the live instance with id `i` on the heap. -/
def updateHeapAt (h : List (Nat × ConfigObj)) (i : Nat) (g : ConfigObj → ConfigObj) :
    List (Nat × ConfigObj) :=
  h.map (fun e => if e.1 = i then (e.1, g e.2) else e)

/-- `register_global` through the instance with id `i`: update that
live instance's defaults in place. -/
def registerGlobalC (st : ConfigCache) (i : Nat) (schema : PyFields) : ConfigCache :=
  ConfigCache.mk st.entries
    (updateHeapAt st.heap i (fun o => registerDefault o "GLOBAL" schema))
    st.next

/-- The module state before any `Config` has been constructed. -/
def emptyConfigCache : ConfigCache :=
  ConfigCache.mk [] [] 0

theorem lookupKeyC_append_self : ∀ (xs : List ((String × String) × Nat))
    (key : String × String) (i : Nat),
    lookupKeyC xs key = Option.none →
    lookupKeyC (xs ++ [(key, i)]) key = some i
  | [], key, i, _ => by simp [lookupKeyC]
  | (k, j) :: tl, key, i, h => by
    by_cases hk : k = key
    · simp [lookupKeyC, hk] at h
    · rw [lookupKeyC, if_neg hk] at h
      rw [List.cons_append, lookupKeyC, if_neg hk]
      exact lookupKeyC_append_self tl key i h

theorem heapGetC_append_self : ∀ (h : List (Nat × ConfigObj)) (i : Nat) (o : ConfigObj),
    heapGetC h i = Option.none →
    heapGetC (h ++ [(i, o)]) i = some o
  | [], i, o, _ => by simp [heapGetC]
  | (i1, o1) :: tl, i, o, hh => by
    by_cases hi : i1 = i
    · simp [heapGetC, hi] at hh
    · rw [heapGetC, if_neg hi] at hh
      rw [List.cons_append, heapGetC, if_neg hi]
      exact heapGetC_append_self tl i o hh

theorem heapGetC_map_update : ∀ (h : List (Nat × ConfigObj)) (i : Nat)
    (g : ConfigObj → ConfigObj),
    heapGetC (updateHeapAt h i g) i = Option.map g (heapGetC h i)
  | [], _, _ => rfl
  | (i1, o1) :: tl, i, g => by
    simp only [updateHeapAt, List.map_cons]
    by_cases hi : i1 = i
    · subst hi
      rw [if_pos rfl, heapGetC, heapGetC, if_pos rfl, if_pos rfl]
      rfl
    · rw [if_neg hi, heapGetC, heapGetC, if_neg hi, if_neg hi]
      exact heapGetC_map_update tl i g

/-- C5: constructing a `Config` for an owner key that already has a
live instance returns that very instance — same id, no construction
side effects on the module state — and a schema registered through the
first reference is visible in the single shared instance the second
reference denotes. -/
theorem config_singleton_identity :
    ∀ (st : ConfigCache) (cog uid : String) (d1 : Nat) (f1 : Bool) (dfl1 : Option PyFields)
      (schema : PyFields) (d2 : Nat) (f2 : Bool) (dfl2 : Option PyFields),
      lookupKeyC st.entries (cog, uid) = Option.none →
      heapGetC st.heap st.next = Option.none →
      (configMetaCall (registerGlobalC (configMetaCall st cog uid d1 f1 dfl1).2
            (configMetaCall st cog uid d1 f1 dfl1).1 schema) cog uid d2 f2 dfl2).1
        = (configMetaCall st cog uid d1 f1 dfl1).1 ∧
      (configMetaCall (registerGlobalC (configMetaCall st cog uid d1 f1 dfl1).2
            (configMetaCall st cog uid d1 f1 dfl1).1 schema) cog uid d2 f2 dfl2).2
        = registerGlobalC (configMetaCall st cog uid d1 f1 dfl1).2
            (configMetaCall st cog uid d1 f1 dfl1).1 schema ∧
      heapGetC (registerGlobalC (configMetaCall st cog uid d1 f1 dfl1).2
            (configMetaCall st cog uid d1 f1 dfl1).1 schema).heap
          (configMetaCall st cog uid d1 f1 dfl1).1
        = some (registerDefault (mkConfigObj cog uid d1 f1 dfl1) "GLOBAL" schema) := by
  intro st cog uid d1 f1 dfl1 schema d2 f2 dfl2 hkey hfresh
  have hc1 : configMetaCall st cog uid d1 f1 dfl1
      = (st.next,
        ConfigCache.mk (st.entries ++ [((cog, uid), st.next)])
          (st.heap ++ [(st.next, mkConfigObj cog uid d1 f1 dfl1)]) (st.next + 1)) := by
    rw [configMetaCall, hkey]
  rw [hc1]
  have hlook : lookupKeyC (st.entries ++ [((cog, uid), st.next)]) (cog, uid)
      = some st.next := lookupKeyC_append_self st.entries (cog, uid) st.next hkey
  have hheap : heapGetC (st.heap ++ [(st.next, mkConfigObj cog uid d1 f1 dfl1)]) st.next
      = some (mkConfigObj cog uid d1 f1 dfl1) :=
    heapGetC_append_self st.heap st.next _ hfresh
  refine ⟨?_, ?_, ?_⟩
  · rw [configMetaCall]
    simp only [registerGlobalC, hlook]
  · rw [configMetaCall]
    simp only [registerGlobalC, hlook]
  · simp only [registerGlobalC]
    rw [heapGetC_map_update, hheap]
    rfl

/-- Witness for C5: the hypotheses (no live instance for the key,
fresh instance id) hold of the empty module state, and the singleton
behavior follows at a concrete registration. -/
theorem config_singleton_identity_witness :
    (configMetaCall (registerGlobalC (configMetaCall emptyConfigCache "Mod" "0" 1 false
          Option.none).2 (configMetaCall emptyConfigCache "Mod" "0" 1 false Option.none).1
          (.cons (.kstr "enabled") (.bool true) .nil)) "Mod" "0" 2 true
        (some (.cons (.kstr "other") (.int 3) .nil))).1
      = (configMetaCall emptyConfigCache "Mod" "0" 1 false Option.none).1 ∧
    heapGetC (registerGlobalC (configMetaCall emptyConfigCache "Mod" "0" 1 false
          Option.none).2 (configMetaCall emptyConfigCache "Mod" "0" 1 false Option.none).1
          (.cons (.kstr "enabled") (.bool true) .nil)).heap
        (configMetaCall emptyConfigCache "Mod" "0" 1 false Option.none).1
      = some (registerDefault (mkConfigObj "Mod" "0" 1 false Option.none) "GLOBAL"
          (.cons (.kstr "enabled") (.bool true) .nil)) := by
  have h := config_singleton_identity emptyConfigCache "Mod" "0" 1 false Option.none
    (.cons (.kstr "enabled") (.bool true) .nil) 2 true
    (some (.cons (.kstr "other") (.int 3) .nil)) (by decide) (by decide)
  exact ⟨h.1, h.2.2⟩

/-- C10: a second `Config` construction with the key of a live cached
instance but a different driver, force_registration flag, or defaults
returns the cached instance unchanged — the module state is untouched
and the instance keeps its original driver, flag and defaults; the
differing arguments are silently dropped. -/
theorem config_second_construction_ignores_new_args :
    ∀ (st : ConfigCache) (cog uid : String) (d1 : Nat) (f1 : Bool) (dfl1 : Option PyFields)
      (d2 : Nat) (f2 : Bool) (dfl2 : Option PyFields),
      lookupKeyC st.entries (cog, uid) = Option.none →
      heapGetC st.heap st.next = Option.none →
      (configMetaCall (configMetaCall st cog uid d1 f1 dfl1).2 cog uid d2 f2 dfl2).1
        = (configMetaCall st cog uid d1 f1 dfl1).1 ∧
      (configMetaCall (configMetaCall st cog uid d1 f1 dfl1).2 cog uid d2 f2 dfl2).2
        = (configMetaCall st cog uid d1 f1 dfl1).2 ∧
      heapGetC (configMetaCall st cog uid d1 f1 dfl1).2.heap
          (configMetaCall st cog uid d1 f1 dfl1).1
        = some (mkConfigObj cog uid d1 f1 dfl1) := by
  intro st cog uid d1 f1 dfl1 d2 f2 dfl2 hkey hfresh
  have hc1 : configMetaCall st cog uid d1 f1 dfl1
      = (st.next,
        ConfigCache.mk (st.entries ++ [((cog, uid), st.next)])
          (st.heap ++ [(st.next, mkConfigObj cog uid d1 f1 dfl1)]) (st.next + 1)) := by
    rw [configMetaCall, hkey]
  rw [hc1]
  have hlook : lookupKeyC (st.entries ++ [((cog, uid), st.next)]) (cog, uid)
      = some st.next := lookupKeyC_append_self st.entries (cog, uid) st.next hkey
  refine ⟨?_, ?_, ?_⟩
  · rw [configMetaCall]
    simp only [hlook]
  · rw [configMetaCall]
    simp only [hlook]
  · exact heapGetC_append_self st.heap st.next _ hfresh

/-- Witness for C10: from the empty module state, constructing for key
`("Mod", "0")` with driver 1 and then again with driver 2, the
opposite flag and different defaults returns the same instance, still
bound to driver 1, flag `false` and the original defaults. -/
theorem config_second_construction_ignores_new_args_witness :
    (configMetaCall (configMetaCall emptyConfigCache "Mod" "0" 1 false
          (some (.cons (.kstr "a") (.int 1) .nil))).2 "Mod" "0" 2 true
        (some (.cons (.kstr "b") (.int 2) .nil))).1
      = (configMetaCall emptyConfigCache "Mod" "0" 1 false
          (some (.cons (.kstr "a") (.int 1) .nil))).1 ∧
    heapGetC (configMetaCall emptyConfigCache "Mod" "0" 1 false
          (some (.cons (.kstr "a") (.int 1) .nil))).2.heap
        (configMetaCall emptyConfigCache "Mod" "0" 1 false
          (some (.cons (.kstr "a") (.int 1) .nil))).1
      = some (mkConfigObj "Mod" "0" 1 false (some (.cons (.kstr "a") (.int 1) .nil))) := by
  have h := config_second_construction_ignores_new_args emptyConfigCache "Mod" "0" 1 false
    (some (.cons (.kstr "a") (.int 1) .nil)) 2 true
    (some (.cons (.kstr "b") (.int 2) .nil)) (by decide) (by decide)
  exact ⟨h.1, h.2.2⟩

/-- Modelled from the spec: `IdentifierData.get_child` lives in
`_drivers`, outside the reviewed source; per spec section 4.1 it
returns a new address with the key appended to the nested path,
mutating nothing. -/
def get_child (a : IdentifierData) (item : String) : IdentifierData :=
  { a with identifiers := a.identifiers ++ [item] }

/-- `Group.is_group(item)` (config.py lines 151-152):
`isinstance(self._defaults.get(str(item)), dict)`. -/
def is_group (defaults : PyFields) (item : String) : Bool :=
  match lookupF defaults (.kstr item) with
  | some (.dict _) => true
  | _ => false

/-- `Group.is_value(item)` (config.py lines 154-158): `not
isinstance(self._defaults[str(item)], dict)`, with `KeyError` giving
`False`. -/
def is_value (defaults : PyFields) (item : String) : Bool :=
  match lookupF defaults (.kstr item) with
  | some v => !(isDict v)
  | Option.none => false

/-- What `Group.__getattr__` hands back: a child `Group` bound to a
child address, a nested defaults subtree and the inherited
`force_registration` flag; a child `Value` bound to a child address
and a default; or an `AttributeError`. -/
inductive ChildAccessor where
  | group (addr : IdentifierData) (defaults : PyFields) (force_registration : Bool)
  | value (addr : IdentifierData) (default : PyVal)
  | attrError
  deriving DecidableEq

/-- `Group.__getattr__(item)` (config.py lines 129-141): consult
`is_group`, then `is_value`; a registered mapping yields a child
`Group` over `self._defaults[item]`, a registered non-mapping yields a
child `Value` with that default, an unregistered key raises
`AttributeError` under `force_registration` and otherwise yields a
child `Value` with default `None`.  Every child is bound to
`self.identifier_data.get_child(item)`. -/
def group_getattr (a : IdentifierData) (defaults : PyFields) (fr : Bool)
    (item : String) : ChildAccessor :=
  let new_identifiers := get_child a item
  if is_group defaults item then
    .group new_identifiers
      (match lookupF defaults (.kstr item) with
        | some (.dict fs) => fs
        | _ => .nil) fr
  else if is_value defaults item then
    .value new_identifiers ((lookupF defaults (.kstr item)).getD .none)
  else if fr then
    .attrError
  else
    .value new_identifiers .none

/-- C7: attribute resolution on a Group dispatches on the defaults
subtree — a key registered as a mapping gives a child Group bound to
the child address and that nested subtree, a key registered as a
non-mapping gives a child Value bound to the child address and that
default, and an unregistered key raises the not-registered error under
force_registration and otherwise gives a child Value with default
`None`. -/
theorem group_attribute_resolution :
    (∀ (a : IdentifierData) (dfs : PyFields) (fr : Bool) (item : String) (fs : PyFields),
      lookupF dfs (.kstr item) = some (.dict fs) →
      group_getattr a dfs fr item = .group (get_child a item) fs fr) ∧
    (∀ (a : IdentifierData) (dfs : PyFields) (fr : Bool) (item : String) (v : PyVal),
      lookupF dfs (.kstr item) = some v → isDict v = false →
      group_getattr a dfs fr item = .value (get_child a item) v) ∧
    (∀ (a : IdentifierData) (dfs : PyFields) (item : String),
      lookupF dfs (.kstr item) = Option.none →
      group_getattr a dfs true item = .attrError) ∧
    (∀ (a : IdentifierData) (dfs : PyFields) (item : String),
      lookupF dfs (.kstr item) = Option.none →
      group_getattr a dfs false item = .value (get_child a item) .none) := by
  refine ⟨?_, ?_, ?_, ?_⟩
  · intro a dfs fr item fs h
    have hg : is_group dfs item = true := by rw [is_group, h]
    rw [group_getattr]
    simp only [hg, if_pos, h]
  · intro a dfs fr item v h hv
    have hg : is_group dfs item = false := by
      rw [is_group, h]
      cases v <;> first
        | rfl
        | simp [isDict] at hv
    have hval : is_value dfs item = true := by
      rw [is_value, h]
      simp [hv]
    rw [group_getattr]
    simp only [hg, hval, if_false, if_true, Bool.false_eq_true, h]
    rfl
  · intro a dfs item h
    have hg : is_group dfs item = false := by rw [is_group, h]
    have hval : is_value dfs item = false := by rw [is_value, h]
    rw [group_getattr]
    simp [hg, hval]
  · intro a dfs item h
    have hg : is_group dfs item = false := by rw [is_group, h]
    have hval : is_value dfs item = false := by rw [is_value, h]
    rw [group_getattr]
    simp [hg, hval]

/-- Witness for C7: the four dispatch cases evaluated on the concrete
schema `{"threshold": 5, "flags": {"a": true, "b": false}}`. -/
theorem group_attribute_resolution_witness :
    group_getattr (IdentifierData.mk "Mod" "0" "GLOBAL" [] [] 0 false) c1_defaults true
        "flags"
      = .group (get_child (IdentifierData.mk "Mod" "0" "GLOBAL" [] [] 0 false) "flags")
          (.cons (.kstr "a") (.bool true) (.cons (.kstr "b") (.bool false) .nil)) true ∧
    group_getattr (IdentifierData.mk "Mod" "0" "GLOBAL" [] [] 0 false) c1_defaults true
        "threshold"
      = .value (get_child (IdentifierData.mk "Mod" "0" "GLOBAL" [] [] 0 false) "threshold")
          (.int 5) ∧
    group_getattr (IdentifierData.mk "Mod" "0" "GLOBAL" [] [] 0 false) c1_defaults true
        "missing"
      = .attrError ∧
    group_getattr (IdentifierData.mk "Mod" "0" "GLOBAL" [] [] 0 false) c1_defaults false
        "missing"
      = .value (get_child (IdentifierData.mk "Mod" "0" "GLOBAL" [] [] 0 false) "missing")
          .none :=
  ⟨group_attribute_resolution.1 _ c1_defaults true "flags" _ (by decide),
    group_attribute_resolution.2.1 _ c1_defaults true "threshold" (.int 5) (by decide)
      (by decide),
    group_attribute_resolution.2.2.1 _ c1_defaults "missing" (by decide),
    group_attribute_resolution.2.2.2 _ c1_defaults "missing" (by decide)⟩

/-- C9 counterexample: `set` on the mapping `{"a": [{1: true}]}` hands
the driver a value in which the mapping nested inside the list still
has the non-string key `1`: `_str_key_dict` does not recurse through
sequences, so not every nested mapping has its keys coerced. -/
theorem str_key_dict_misses_list_nested_mapping :
    deepKeysStr (Value_set_stored (.dict (.cons (.kstr "a")
      (.list (.cons (.dict (.cons (.kint 1) (.bool true) .nil)) .nil)) .nil))) = false := by
  decide

/-- C9 amended: whichever write path performs the write — a direct
`set` or the scoped read-modify-write exit, which calls the same
`set` — the driver receives the same stored form, with the mapping's
own keys and the keys of every mapping reachable through mapping
values coerced to strings; mappings nested inside sequences are left
untouched by the coercion. -/
theorem set_coerces_keys_identically_on_both_paths :
    (∀ v, rmw_exit_stored v = Value_set_stored v) ∧
    (∀ fs, Value_set_stored (.dict fs) = .dict (strKeyFields fs)) ∧
    (∀ fs, strKeysVal (Value_set_stored (.dict fs)) = true) := by
  refine ⟨fun v => rfl, fun fs => rfl, ?_⟩
  intro fs
  show strKeysVal (strKeyVal (.dict fs)) = true
  exact strKeyVal_strKeys (.dict fs)

end RedConfig
